import Mathlib

/-!
Verification of the dispatch/negotiation/range pipeline of `piston/resource.py`
(the `Resource` class).  The data model and the operations are embedded
shallowly: request parameter blocks are association lists, handler methods are
functions from requests to results, and the dispatcher is a total function
from a resource configuration and a request to an outcome (a response, a
raised `Http404`, or another exception escaping the dispatcher).  String
primitives (prefix test, trimming, upper-casing, integer parsing) are
implemented over character lists so that every definition evaluates inside
the kernel.
-/

namespace Piston

/-- Whether `s` starts with `p` (Python `str.startswith`). -/
def strStartsWith (s p : String) : Bool := p.data.isPrefixOf s.data

/-- Upper-case one ASCII character (Python `str.upper`, ASCII range). -/
def charToUpper (c : Char) : Char :=
  if c.toNat ≥ 97 ∧ c.toNat ≤ 122 then Char.ofNat (c.toNat - 32) else c

/-- Upper-case a string (Python `str.upper`, ASCII range). -/
def strToUpper (s : String) : String := String.mk (s.data.map charToUpper)

/-- ASCII whitespace, for trimming. -/
def isSpaceChar (c : Char) : Bool := c == ' ' || c == '\t' || c == '\n' || c == '\r'

/-- Strip surrounding whitespace (Python `str.strip`). -/
def strTrim (s : String) : String :=
  String.mk (((s.data.dropWhile isSpaceChar).reverse.dropWhile isSpaceChar).reverse)

/-- The numeric value of a run of decimal digits. -/
def digitsVal (l : List Char) : Nat :=
  l.foldl (fun acc c => acc * 10 + (c.toNat - 48)) 0

/-- Parse a nonempty run of decimal digits, `none` otherwise. -/
def parseDigits (l : List Char) : Option Nat :=
  if !l.isEmpty && l.all Char.isDigit then some (digitsVal l) else none

/-- Python `int(s)` on a parameter string, `none` standing for the
`ValueError` the source turns into `None`: optional sign, then decimal
digits, surrounding whitespace allowed. -/
def pyInt (s : String) : Option Int :=
  match (strTrim s).data with
  | '-' :: ds => (parseDigits ds).map (fun n => -(n : Int))
  | '+' :: ds => (parseDigits ds).map (fun n => (n : Int))
  | ds => (parseDigits ds).map (fun n => (n : Int))

/-- Modelled from the spec: an HTTP-like response outcome — status code, body
content and headers.  The framework response classes (`HttpResponse`,
`HttpResponseNotAllowed`, `HttpResponseServerError`, the `rc` factory of
`utils`) are external collaborators not under `src/`; section 7 of the spec
gives their status codes. -/
structure HttpResp where
  status_code : Nat
  content : String
  headers : List (String × String) := []
deriving Repr, DecidableEq

/-- Modelled from the spec: the fixed bad-request outcome `rc.BAD_REQUEST`
(status 400). -/
def rcBadRequest : HttpResp := { status_code := 400, content := "Bad Request" }

/-- Modelled from the spec: the not-found outcome `rc.NOT_FOUND` (status 404). -/
def rcNotFound : HttpResp := { status_code := 404, content := "Not Found" }

/-- Modelled from the spec: the range-not-satisfiable outcome `rc.BAD_RANGE`
(status 416). -/
def rcBadRange : HttpResp :=
  { status_code := 416, content := "Requested Range Not Satisfiable" }

/-- Modelled from the spec: `HttpResponseNotAllowed(permitted)` — the 405
outcome listing the allowed verbs. -/
def notAllowedResp (allowed : List String) : HttpResp :=
  { status_code := 405, content := "",
    headers := [("Allow", String.intercalate ", " allowed)] }

/-- Modelled from the spec: `HttpResponseServerError(format_error(...))` — the
500 outcome carrying a rendered traceback body (last row of the error
classifier table). -/
def serverErrorResp : HttpResp :=
  { status_code := 500, content := "Internal Server Error: traceback" }

/-- `resp.write(s)` on a framework response: appends to the body. -/
def writeTo (r : HttpResp) (s : String) : HttpResp :=
  { r with content := r.content ++ s }

/-- An HTTP-like request: verb, the four verb-keyed parameter blocks, the
`META` headers, whether the external body decoder (`translate_mime`) succeeds
on it, and the route-supplied `emitter_format` keyword argument. -/
structure Request where
  method : String
  GET : List (String × String) := []
  POST : List (String × String) := []
  PUT : List (String × String) := []
  DELETE : List (String × String) := []
  META : List (String × String) := []
  bodyDecodable : Bool := true
  emitter_format : Option String := none
deriving Repr, DecidableEq

/-- Dictionary lookup on a parameter block. -/
def lookupParam (block : List (String × String)) (key : String) : Option String :=
  match block.find? (fun kv => kv.1 == key) with
  | some kv => some kv.2
  | none => none

/-- The value a handler method invocation produces: a plain non-response
value, a framework `HttpResponse` (carrying its own status code and raw
container), or a lazy queryable collection (`QuerySet`, items abstracted as
naturals). -/
inductive MethodResult where
  | plain (v : String)
  | response (status : Nat) (container : String)
  | queryset (items : List Nat)
deriving Repr, DecidableEq

/-- A handler method: what invoking it on the (sanitized) request returns,
and whether `HandlerMethod(meth).signature` is truthy (the `doc` collaborator
is not under `src/`).  The embedding covers non-raising handler methods. -/
structure HMethod where
  run : Request → MethodResult
  sigTruthy : Bool := false

/-- A handler: declared allowed verbs, anonymity flag, and the CRUD methods
it exposes keyed by name (`read`, `create`, `update`, `delete`). -/
structure Handler where
  allowed_methods : List String
  is_anonymous : Bool := false
  methods : List (String × HMethod) := []

/-- `getattr(handler, name, None)` restricted to the CRUD methods; the empty
name (produced by `callmap.get(rm, "")` on unknown verbs) never resolves. -/
def lookupMethod (h : Handler) (name : String) : Option HMethod :=
  match h.methods.find? (fun kv => kv.1 == name) with
  | some kv => some kv.2
  | none => none

/-- The fixed `callmap` table of `Resource`. -/
def callmap (rm : String) : Option String :=
  if rm = "GET" then some "read"
  else if rm = "POST" then some "create"
  else if rm = "PUT" then some "update"
  else if rm = "DELETE" then some "delete"
  else none

/-- An authentication strategy: `is_authenticated(request)` and the response
its `challenge` capability produces when called. -/
structure Authenticator where
  is_authenticated : Request → Bool
  challenge : HttpResp

/-- The second component of `authenticate`: a boolean, or the distinct
`CHALLENGE` sentinel object (`CHALLENGE = object()` in the source). -/
inductive Anonymity where
  | ofBool (b : Bool)
  | CHALLENGE
deriving Repr, DecidableEq

/-- The first component of `authenticate`: Python `False` initially, a
handler instance, or an authenticator challenge capability. -/
inductive Actor where
  | falseInit
  | handlerActor (h : Handler)
  | challengeOf (c : HttpResp)

/-- A resource configuration: the bound handler, the ordered authentication
strategies, the resolved anonymous handler variant (the `anonymous` property),
the error/streaming settings and the paging parameter names, plus the emitter
registry (`Emitter.get`, an external collaborator: format name to content
type; unknown formats raise `ValueError`). -/
structure Resource where
  handler : Handler
  authentication : List Authenticator
  anonymous : Option Handler := none
  email_errors : Bool := true
  display_errors : Bool := true
  stream : Bool := false
  paging_offset : String := "offset"
  paging_limit : String := "limit"
  emitters : List (String × String) := [("json", "application/json")]

/-- The loop body of `Resource.authenticate`: iterate the strategies; a
strategy that authenticates returns the bound handler and its anonymity flag
immediately; a failing strategy overwrites the accumulator with either the
anonymous variant (when it allows the verb) or its own challenge plus the
`CHALLENGE` sentinel, and iteration continues. -/
def authLoop (res : Resource) (req : Request) (rm : String) :
    Actor × Anonymity → List Authenticator → Actor × Anonymity
  | acc, [] => acc
  | _, a :: rest =>
    if a.is_authenticated req then
      (Actor.handlerActor res.handler, Anonymity.ofBool res.handler.is_anonymous)
    else
      match res.anonymous with
      | some anon =>
        if rm ∈ anon.allowed_methods then
          authLoop res req rm (Actor.handlerActor anon, Anonymity.ofBool true) rest
        else
          authLoop res req rm (Actor.challengeOf a.challenge, Anonymity.CHALLENGE) rest
      | none =>
        authLoop res req rm (Actor.challengeOf a.challenge, Anonymity.CHALLENGE) rest

/-- `Resource.authenticate(request, rm)`, starting from the initial
accumulator `actor, anonymous = False, True`. -/
def authenticate (res : Resource) (req : Request) (rm : String) : Actor × Anonymity :=
  authLoop res req rm (Actor.falseInit, Anonymity.ofBool true) res.authentication

/-- `Resource.determine_emitter`: the route `emitter_format` argument when
truthy, else the `format` query parameter, else the fixed default `json`. -/
def determine_emitter (req : Request) : String :=
  let em := match req.emitter_format with | some s => s | none => ""
  if em = "" then
    match lookupParam req.GET "format" with
    | some f => f
    | none => "json"
  else em

/-- Whether a parameter key carries the credential-delegation prefix
(`k.startswith("oauth_")`). -/
def oauthKey (k : String) : Bool := strStartsWith k "oauth_"

/-- One parameter block of `Resource.cleanup_request`: when some key carries
the `oauth_` prefix, the block is replaced by a copy with every such key
popped; otherwise it is left as is. -/
def stripOauthBlock (block : List (String × String)) : List (String × String) :=
  if block.any (fun kv => oauthKey kv.1) then
    block.filter (fun kv => !(oauthKey kv.1))
  else block

/-- `Resource.cleanup_request`: sanitize each of the `GET`, `PUT`, `POST` and
`DELETE` parameter blocks independently. -/
def cleanup_request (req : Request) : Request :=
  { req with
    GET := stripOauthBlock req.GET,
    PUT := stripOauthBlock req.PUT,
    POST := stripOauthBlock req.POST,
    DELETE := stripOauthBlock req.DELETE }

/-- Modelled from the spec: `coerce_put_post` (utils, an external
collaborator) triggers the framework body parsing so that the PUT parameter
block holds the parsed body.  The embedding takes the PUT block of a request
as already parsed, so this is the identity on the request value. -/
def coerce_put_post (req : Request) : Request := req

/-- `Emitter.get(em_format)`: the registry lookup, `none` when the format is
unrecognized (the `ValueError` case). -/
def emitterGet (res : Resource) (em_format : String) : Option String :=
  lookupParam res.emitters em_format

/-- Modelled from the spec: the emitter serialization `srl.render(request)`.
Emitters are external collaborators; the embedding serializes the result to
an opaque string, never yields a framework response object and never raises
for the inputs considered here. -/
def renderValue : MethodResult → String
  | MethodResult.plain v => v
  | MethodResult.response _ container => container
  | MethodResult.queryset items => String.intercalate "," (items.map toString)

/-- A dispatcher outcome: a returned response, the `raise Http404` of the
method resolver, or another exception escaping `__call__` (name recorded). -/
inductive Outcome where
  | response (r : HttpResp)
  | raisedHttp404
  | raisedError (name : String)
deriving Repr, DecidableEq

/-- A dispatch result together with the list of requests the handler method
was invoked with, in order (for invocation counting). -/
structure CallResult where
  outcome : Outcome
  invocations : List Request
deriving Repr, DecidableEq

/-- The match of `range_re` (`^items=(\d*)-(\d*)$`) against a header already
known to start with `items=`: after `items=` there must be a digit run, a
dash, and a digit run to the end (either run possibly empty); returns the two
captured groups.  The split is unique because the dash is not a digit. -/
def matchItemsRange (h : String) : Option (List Char × List Char) :=
  let rest := h.data.drop 6
  let g1 := rest.takeWhile Char.isDigit
  match rest.dropWhile Char.isDigit with
  | '-' :: t2 => if t2.all Char.isDigit then some (g1, t2) else none
  | _ => none

/-- `int(m.group(i))` applied when the captured digit run is nonempty, the
bound staying absent when the group is empty. -/
def groupToBound (g : List Char) : Option Int :=
  if g.isEmpty then none else some ((digitsVal g : Nat) : Int)

/-- The outcome of the range-determination block (`__call__`, range header
and paging-parameter parsing): a malformed `items=` header (immediate 400), a
requested `(start, end)` pair with optionally absent sides, or no range. -/
inductive RangeDecision where
  | malformed
  | requested (s e : Option Int)
  | noRange
deriving Repr, DecidableEq

/-- The range-determination block of `__call__`: when the `HTTP_RANGE` header
is present, only it is consulted — an `items=`-prefixed value must match the
range pattern (else malformed) and any other value yields no range at all;
only when the header is absent are the paging query parameters consulted, and
both must be present, combining to `(offset, offset+limit-1)`,
`(offset, absent)` or `(absent, limit)` according to which side parses as an
integer. -/
def determine_request_range (res : Resource) (req : Request) : RangeDecision :=
  match lookupParam req.META "HTTP_RANGE" with
  | some hv =>
    let h := strTrim hv
    if strStartsWith h "items=" then
      match matchItemsRange h with
      | some g => RangeDecision.requested (groupToBound g.1) (groupToBound g.2)
      | none => RangeDecision.malformed
    else RangeDecision.noRange
  | none =>
    if (lookupParam req.GET res.paging_offset).isSome
        ∧ (lookupParam req.GET res.paging_limit).isSome then
      match (lookupParam req.GET res.paging_offset).bind pyInt,
            (lookupParam req.GET res.paging_limit).bind pyInt with
      | some o, some l => RangeDecision.requested (some o) (some (o + l - 1))
      | some o, none => RangeDecision.requested (some o) none
      | none, some l => RangeDecision.requested none (some l)
      | none, none => RangeDecision.noRange
    else RangeDecision.noRange

/-- Truthiness of a negative bound (`start != None and start < 0`). -/
def negOpt : Option Int → Bool
  | some v => decide (v < 0)
  | none => false

/-- The branch structure of `get_range` on `(range_start, range_end)` after
the negativity checks, with `last = total - 1`; each side may still be absent
and the branches mirror the four cases of the source. -/
def get_range_branches (start e : Option Int) (last : Int) :
    Except String (Option Int × Option Int) :=
  match start, e with
  | some rs, some re =>
    if rs > last then Except.error "start gt last"
    else if rs > re then Except.error "start lt end"
    else if re > last then Except.ok (some rs, some last)
    else Except.ok (some rs, some re)
  | some rs, none =>
    if rs > last then Except.error "start gt last"
    else Except.ok (some rs, some last)
  | none, some re =>
    if re > last then Except.ok (some 0, some last)
    else Except.ok (some (last - re + 1), some last)
  | none, none => Except.error "no start or end"

/-- `get_range(start, end, total)` of `__call__`: negativity checks, then the
four-way branch, then the two asserts that both bounds came out present (an
assert failure is distinguished from a `BadRangeException`, which carries the
reason strings of the source). -/
def get_range (start e : Option Int) (total : Int) : Except String (Int × Int) :=
  if negOpt start then Except.error "negative ranges not allowed"
  else if negOpt e then Except.error "negative ranges not allowed"
  else
    match get_range_branches start e (total - 1) with
    | Except.error m => Except.error m
    | Except.ok (some a, some b) => Except.ok (a, b)
    | Except.ok _ => Except.error "assertion failed"

/-- Python slicing `items[s : e1]` for a nonnegative start bound (the only
shape produced by `get_range`). -/
def pySlice (items : List Nat) (s e1 : Int) : List Nat :=
  (items.drop s.toNat).take (e1 - s).toNat

/-- The outcome of the range-application block on a queryable collection:
passthrough when no range was requested, a sliced collection with its
content-range descriptor, a 416 response on a `BadRangeException`, a 400
response on a malformed header, or a propagating assert failure. -/
inductive RangeApplied where
  | passthrough (items : List Nat)
  | limited (items : List Nat) (content_range : String)
  | badRangeResp (r : HttpResp)
  | malformedResp (r : HttpResp)
  | raisedAssert
deriving Repr, DecidableEq

/-- The range block of `__call__` on a queryable result: determine the
requested range; when one is requested, count the collection, resolve the
range, slice to `result[start : end+1]` and record the descriptor
`items start-end/total`; a `BadRangeException` yields the 416 outcome with
the reason appended. -/
def apply_range (res : Resource) (req : Request) (items : List Nat) : RangeApplied :=
  match determine_request_range res req with
  | RangeDecision.malformed =>
    RangeApplied.malformedResp (writeTo rcBadRequest " malformed range header")
  | RangeDecision.noRange => RangeApplied.passthrough items
  | RangeDecision.requested s e =>
    let total : Int := items.length
    match get_range s e total with
    | Except.error m =>
      if m = "assertion failed" then RangeApplied.raisedAssert
      else RangeApplied.badRangeResp (writeTo rcBadRange ("\n" ++ m))
    | Except.ok p =>
      RangeApplied.limited (pySlice items p.1 (p.2 + 1))
        ("items " ++ toString p.1 ++ "-" ++ toString p.2 ++ "/" ++ toString total)

/-- The final outcome builder of the source (the second render block): build
the response from the rendered body and, when a content-range descriptor was
recorded, set status 206 and the `Content-Range` header.  In the source this
block is unreachable: the first render block always exits `__call__` first. -/
def buildFinalOutcome (status_code : Nat) (body : String) (ct : String)
    (content_range : Option String) : HttpResp :=
  match content_range with
  | some cr =>
    { status_code := 206, content := body,
      headers := [("Content-Type", ct), ("Content-Range", cr)] }
  | none =>
    { status_code := status_code, content := body,
      headers := [("Content-Type", ct)] }

/-- The first render block of `__call__` (lines 205-251 of the source) once
the rendering of the serialized result has succeeded: the next statements
reference the never-assigned local `msg` (either in the display-errors branch
or in `result.content = format_error(msg)`), so the block always raises
`UnboundLocalError`, which the bare exception arm turns into the 500
traceback response when display-errors is on and re-raises otherwise. -/
def firstRenderBlock (res : Resource) : Outcome :=
  if res.display_errors then Outcome.response serverErrorResp
  else Outcome.raisedError "UnboundLocalError"

/-- The emission stage of `__call__`: for a response-valued result the status
code and raw container are taken over, and then `if sig:` appends to the
never-assigned local `msg` outside any enclosing handler, so a truthy
signature raises `UnboundLocalError` out of the dispatcher; in every other
case control reaches the first render block. -/
def callEmit (res : Resource) (meth : HMethod) (result : MethodResult) : Outcome :=
  match result with
  | MethodResult.response _ _ =>
    if meth.sigTruthy then Outcome.raisedError "UnboundLocalError"
    else firstRenderBlock res
  | _ => firstRenderBlock res

/-- The dispatch stage of `__call__` after authentication and body decoding:
the allowed-verb check (405 with the allowed list), the verb-to-name mapping
and method lookup (`raise Http404` when either fails), emitter-format
determination, request sanitization, method invocation, and the emitter
registry lookup (400 on an unrecognized format — the method has already been
invoked at that point). -/
def callDispatch (res : Resource) (req : Request) (rm : String)
    (handler : Handler) : CallResult :=
  if rm ∈ handler.allowed_methods then
    match callmap rm with
    | none => { outcome := Outcome.raisedHttp404, invocations := [] }
    | some name =>
      match lookupMethod handler name with
      | none => { outcome := Outcome.raisedHttp404, invocations := [] }
      | some meth =>
        let em_format := determine_emitter req
        let reqClean := cleanup_request req
        let result := meth.run reqClean
        match emitterGet res em_format with
        | none =>
          { outcome := Outcome.response
              { status_code := 400,
                content := "Invalid output format specified " ++ em_format ++ "." },
            invocations := [reqClean] }
        | some _ => { outcome := callEmit res meth result, invocations := [reqClean] }
  else { outcome := Outcome.response (notAllowedResp handler.allowed_methods), invocations := [] }

/-- The stage of `__call__` after `authenticate` has produced its pair: the
`CHALLENGE` branch returns the challenge response at once; otherwise the body
of a POST or PUT is decoded (a `MimerDataException` yields the fixed 400
outcome before the allowed-verb check), and dispatch proceeds with the actor
as handler.  A non-handler actor outside the `CHALLENGE` branch (possible
only with an empty strategy list) fails on the attribute access. -/
def callAuthed (res : Resource) (req : Request) (rm : String) :
    Actor × Anonymity → CallResult
  | (Actor.challengeOf c, Anonymity.CHALLENGE) =>
    { outcome := Outcome.response c, invocations := [] }
  | (_, Anonymity.CHALLENGE) =>
    { outcome := Outcome.raisedError "TypeError", invocations := [] }
  | (actor, Anonymity.ofBool _) =>
    if (rm = "POST" ∨ rm = "PUT") ∧ req.bodyDecodable = false then
      { outcome := Outcome.response rcBadRequest, invocations := [] }
    else
      match actor with
      | Actor.handlerActor handler => callDispatch res req rm handler
      | _ => { outcome := Outcome.raisedError "AttributeError", invocations := [] }

/-- `Resource.__call__`: normalize the verb casing, trigger PUT body
coercion, authenticate, and continue with the authenticated stage. -/
def call (res : Resource) (req0 : Request) : CallResult :=
  let rm := strToUpper req0.method
  let req := if rm = "PUT" then coerce_put_post req0 else req0
  callAuthed res req rm (authenticate res req rm)

/-- A handler method returning a plain value. -/
def readPlainMethod : HMethod := { run := fun _ => MethodResult.plain "ok" }

/-- A GET-only handler whose `read` returns a plain value. -/
def happyHandler : Handler :=
  { allowed_methods := ["GET"], methods := [("read", readPlainMethod)] }

/-- A strategy that authenticates every request. -/
def alwaysAuth : Authenticator :=
  { is_authenticated := fun _ => true,
    challenge := { status_code := 401, content := "" } }

/-- A resource binding the plain-value handler with a single always-passing
strategy and the default configuration. -/
def happyResource : Resource :=
  { handler := happyHandler, authentication := [alwaysAuth] }

/-- A plain GET request with no parameters. -/
def happyRequest : Request := { method := "GET" }

/-- A strategy that never authenticates, with a distinctive challenge. -/
def neverAuth1 : Authenticator :=
  { is_authenticated := fun _ => false,
    challenge := { status_code := 401, content := "challenge one" } }

/-- A second never-authenticating strategy with a different challenge. -/
def neverAuth2 : Authenticator :=
  { is_authenticated := fun _ => false,
    challenge := { status_code := 402, content := "challenge two" } }

/-- A resource with two never-authenticating strategies and no anonymous
variant. -/
def twoAuthResource : Resource :=
  { handler := happyHandler, authentication := [neverAuth1, neverAuth2] }

/-- A PATCH request. -/
def patchRequest : Request := { method := "PATCH" }

/-- A handler declaring PATCH among its allowed verbs. -/
def patchAllowedHandler : Handler :=
  { allowed_methods := ["PATCH"], methods := [("read", readPlainMethod)] }

/-- A handler method returning a 100-item lazy collection. -/
def qsMethod : HMethod := { run := fun _ => MethodResult.queryset (List.range 100) }

/-- A GET-only handler whose `read` returns the 100-item collection. -/
def qsHandler : Handler :=
  { allowed_methods := ["GET"], methods := [("read", qsMethod)] }

/-- A resource binding the collection handler with the always-passing
strategy. -/
def qsResource : Resource :=
  { handler := qsHandler, authentication := [alwaysAuth] }

/-- A GET request carrying `offset=10` and `limit=5`. -/
def pagedRequest : Request :=
  { method := "GET", GET := [("offset", "10"), ("limit", "5")] }

/-- A POST request whose body the decoder rejects. -/
def badPostRequest : Request := { method := "POST", bodyDecodable := false }

/-- A GET request with `oauth_`-prefixed and ordinary parameters spread over
the verb-keyed blocks. -/
def oauthRequest : Request :=
  { method := "GET",
    GET := [("oauth_token", "tok"), ("q", "1")],
    POST := [("oauth_signature", "sig0"), ("body", "2")],
    PUT := [("oauth_nonce", "n")],
    DELETE := [("id", "3")] }

/-- A GET request whose range header uses the `bytes=` unit and whose query
string carries valid paging parameters. -/
def bytesRangeRequest : Request :=
  { method := "GET",
    GET := [("offset", "10"), ("limit", "5")],
    META := [("HTTP_RANGE", "bytes=0-10")] }

/-- C1: for a request that authenticates, whose verb maps to an existing
allowed method, whose handler method returns a plain non-response value,
whose requested output format is recognized, and that requests no item
range, the claim says `handle` returns a well-formed outcome with status
200.  The code disagrees: on exactly such a request the first render block
references the never-assigned local `msg`, the bare exception arm converts
the `UnboundLocalError` into the 500 server-error outcome, and the handler
method has already been invoked once. -/
theorem c1_happy_path_yields_500_not_200 :
    (call happyResource happyRequest).outcome = Outcome.response serverErrorResp ∧
    serverErrorResp.status_code = 500 ∧ (500 : Nat) ≠ 200 ∧
    (call happyResource happyRequest).invocations = [cleanup_request happyRequest] :=
  ⟨rfl, rfl, by decide, rfl⟩

/-- C2 (counterexample): with two configured strategies neither of which
authenticates and no anonymous variant, `authenticate` returns the SECOND
strategy's challenge capability with the `CHALLENGE` sentinel — not the
first strategy's challenge, which is a different capability. -/
theorem c2_counterexample :
    authenticate twoAuthResource happyRequest "GET"
      = (Actor.challengeOf neverAuth2.challenge, Anonymity.CHALLENGE) ∧
    neverAuth2.challenge ≠ neverAuth1.challenge :=
  ⟨rfl, by decide⟩

theorem authLoop_cons (res : Resource) (req : Request) (rm : String)
    (acc : Actor × Anonymity) (b : Authenticator) (rest : List Authenticator)
    (hb : b.is_authenticated req = false)
    (hnoanon : ∀ anon, res.anonymous = some anon → rm ∉ anon.allowed_methods) :
    authLoop res req rm acc (b :: rest)
      = authLoop res req rm (Actor.challengeOf b.challenge, Anonymity.CHALLENGE) rest := by
  simp only [authLoop, hb, Bool.false_eq_true, if_false]
  cases hanon : res.anonymous with
  | none => rfl
  | some anon => simp [hnoanon anon hanon]

theorem authLoop_all_fail (res : Resource) (req : Request) (rm : String)
    (l : List Authenticator) (a : Authenticator)
    (hlast : l.getLast? = some a)
    (hnoauth : ∀ s ∈ l, s.is_authenticated req = false)
    (hnoanon : ∀ anon, res.anonymous = some anon → rm ∉ anon.allowed_methods) :
    ∀ acc, authLoop res req rm acc l
      = (Actor.challengeOf a.challenge, Anonymity.CHALLENGE) := by
  induction l with
  | nil => cases hlast
  | cons b rest ih =>
    intro acc
    have hb : b.is_authenticated req = false := hnoauth b (List.mem_cons_self b rest)
    rw [authLoop_cons res req rm acc b rest hb hnoanon]
    cases rest with
    | nil =>
      simp only [List.getLast?_singleton, Option.some.injEq] at hlast
      subst hlast
      rfl
    | cons c rest2 =>
      have hlast2 : (c :: rest2).getLast? = some a := by
        rwa [List.getLast?_cons_cons] at hlast
      exact ih hlast2 (fun s hs => hnoauth s (List.mem_cons_of_mem b hs)) _

/-- C2 (amended): when no strategy authenticates the request and no
anonymous variant permits the verb, `authenticate` returns the LAST
configured strategy's challenge capability together with the distinct
`CHALLENGE` sentinel — each failing strategy overwrites the accumulator, so
the last strategy wins, not the first as the claim states. -/
theorem c2_amended_last_challenge (res : Resource) (req : Request) (rm : String)
    (a : Authenticator)
    (hlast : res.authentication.getLast? = some a)
    (hnoauth : ∀ s ∈ res.authentication, s.is_authenticated req = false)
    (hnoanon : ∀ anon, res.anonymous = some anon → rm ∉ anon.allowed_methods) :
    authenticate res req rm
      = (Actor.challengeOf a.challenge, Anonymity.CHALLENGE) :=
  authLoop_all_fail res req rm res.authentication a hlast hnoauth hnoanon _

theorem c2_amended_witness :
    authenticate twoAuthResource happyRequest "GET"
      = (Actor.challengeOf neverAuth2.challenge, Anonymity.CHALLENGE) := by
  refine c2_amended_last_challenge twoAuthResource happyRequest "GET" neverAuth2 rfl ?_ ?_
  · intro s hs
    rcases List.mem_cons.mp hs with h | h
    · subst h; rfl
    · rcases List.mem_cons.mp h with h2 | h2
      · subst h2; rfl
      · exact absurd h2 (List.not_mem_nil s)
  · intro anon h
    exact Option.noConfusion h

/-- C3 (counterexample): a PATCH request against a handler that does not
declare PATCH allowed is answered by the 405 method-not-allowed outcome —
the allowed-verb check runs before the verb-table lookup, so the dispatch
does not fail with NotFound, contradicting the claimed independence from
the handler's allowed-verb set. -/
theorem c3_counterexample :
    (call happyResource patchRequest).outcome
      = Outcome.response (notAllowedResp ["GET"]) ∧
    (call happyResource patchRequest).outcome ≠ Outcome.raisedHttp404 :=
  ⟨rfl, by decide⟩

/-- C3 (amended): for a verb outside the fixed table, dispatch fails with
NotFound (`raise Http404`) exactly when the verb is in the handler's
declared allowed set; otherwise the 405 method-not-allowed outcome listing
the allowed verbs is returned first.  In neither case is any handler method
invoked. -/
theorem c3_amended_untabled_verb (res : Resource) (req : Request)
    (handler : Handler) (rm : String) (hnotab : callmap rm = none) :
    callDispatch res req rm handler
      = if rm ∈ handler.allowed_methods
        then { outcome := Outcome.raisedHttp404, invocations := [] }
        else { outcome := Outcome.response (notAllowedResp handler.allowed_methods),
               invocations := [] } := by
  by_cases hmem : rm ∈ handler.allowed_methods <;>
    simp [callDispatch, hmem, hnotab]

theorem c3_amended_witness :
    (callDispatch happyResource patchRequest "PATCH" patchAllowedHandler
      = if "PATCH" ∈ patchAllowedHandler.allowed_methods
        then { outcome := Outcome.raisedHttp404, invocations := [] }
        else { outcome := Outcome.response (notAllowedResp patchAllowedHandler.allowed_methods),
               invocations := [] }) ∧
    (callDispatch happyResource patchRequest "PATCH" happyHandler
      = if "PATCH" ∈ happyHandler.allowed_methods
        then { outcome := Outcome.raisedHttp404, invocations := [] }
        else { outcome := Outcome.response (notAllowedResp happyHandler.allowed_methods),
               invocations := [] }) :=
  ⟨c3_amended_untabled_verb happyResource patchRequest patchAllowedHandler "PATCH" rfl,
   c3_amended_untabled_verb happyResource patchRequest happyHandler "PATCH" rfl⟩

theorem get_range_some_some (s e T : Int) (hs : ¬ s < 0) (he : ¬ e < 0) :
    get_range (some s) (some e) T
      = if s > T - 1 then Except.error "start gt last"
        else if s > e then Except.error "start lt end"
        else if e > T - 1 then Except.ok (s, T - 1)
        else Except.ok (s, e) := by
  simp only [get_range, get_range_branches, negOpt]
  rw [decide_eq_false hs, decide_eq_false he]
  simp only [Bool.false_eq_true, if_false]
  split_ifs <;> rfl

theorem get_range_some_none (s T : Int) (hs : ¬ s < 0) :
    get_range (some s) none T
      = if s > T - 1 then Except.error "start gt last"
        else Except.ok (s, T - 1) := by
  simp only [get_range, get_range_branches, negOpt]
  rw [decide_eq_false hs]
  simp only [Bool.false_eq_true, if_false]
  split_ifs <;> rfl

theorem get_range_none_some (e T : Int) (he : ¬ e < 0) :
    get_range none (some e) T
      = if e > T - 1 then Except.ok (0, T - 1)
        else Except.ok (T - 1 - e + 1, T - 1) := by
  simp only [get_range, get_range_branches, negOpt]
  rw [decide_eq_false he]
  simp only [Bool.false_eq_true, if_false]
  split_ifs <;> rfl

/-- C4 (counterexample): `get_range` can return successfully with bounds
violating `start ≤ end`: with start absent, end 0 and total 50 it returns
`(50, 49)`. -/
theorem c4_counterexample :
    get_range none (some 0) 50 = Except.ok (50, 49) ∧ ¬ ((50 : Int) ≤ 49) :=
  ⟨rfl, by decide⟩

/-- C4 (amended): on success both bounds are always present (the two asserts
never fire), and the inequalities `0 ≤ start ≤ end ≤ total - 1` hold
whenever `total ≥ 1` and the inputs are not the tail-0 case (start absent,
end given as 0), where the result is `(total, total - 1)` instead. -/
theorem c4_amended_invariant (s e : Option Int) (T : Int) :
    get_range s e T ≠ Except.error "assertion failed" ∧
    (∀ a b, get_range s e T = Except.ok (a, b) → 1 ≤ T →
      ¬ (s = none ∧ e = some 0) → 0 ≤ a ∧ a ≤ b ∧ b ≤ T - 1) := by
  constructor
  · rcases s with _ | sv
    · rcases e with _ | ev
      · simp [get_range, get_range_branches, negOpt]
      · by_cases hv : ev < 0
        · simp [get_range, negOpt, hv]
        · rw [get_range_none_some ev T hv]
          split_ifs <;> simp
    · rcases e with _ | ev
      · by_cases hv : sv < 0
        · simp [get_range, negOpt, hv]
        · rw [get_range_some_none sv T hv]
          split_ifs <;> simp
      · by_cases h1 : sv < 0
        · simp [get_range, negOpt, h1]
        · by_cases h2 : ev < 0
          · simp [get_range, negOpt, h1, h2]
          · rw [get_range_some_some sv ev T h1 h2]
            split_ifs <;> simp
  · intro a b hok hT hne
    rcases s with _ | sv
    · rcases e with _ | ev
      · simp [get_range, get_range_branches, negOpt] at hok
      · have hne' : ev ≠ 0 := by
          intro h0
          exact hne ⟨rfl, by rw [h0]⟩
        by_cases hv : ev < 0
        · simp [get_range, negOpt, hv] at hok
        · rw [get_range_none_some ev T hv] at hok
          split_ifs at hok with hgt <;>
            simp only [Except.ok.injEq, Prod.mk.injEq] at hok <;> omega
    · rcases e with _ | ev
      · by_cases hv : sv < 0
        · simp [get_range, negOpt, hv] at hok
        · rw [get_range_some_none sv T hv] at hok
          split_ifs at hok with hgt
          simp only [Except.ok.injEq, Prod.mk.injEq] at hok
          omega
      · by_cases h1 : sv < 0
        · simp [get_range, negOpt, h1] at hok
        · by_cases h2 : ev < 0
          · simp [get_range, negOpt, h1, h2] at hok
          · rw [get_range_some_some sv ev T h1 h2] at hok
            split_ifs at hok with hg1 hg2 hg3 <;>
              simp only [Except.ok.injEq, Prod.mk.injEq] at hok <;> omega

theorem c4_amended_witness :
    (0 : Int) ≤ 7 ∧ (7 : Int) ≤ 45 ∧ (45 : Int) ≤ 100 - 1 :=
  (c4_amended_invariant (some 7) (some 45) 100).2 7 45 rfl (by decide) (by decide)

/-- C5: for total `T ≥ 1` and a nonnegative start (the bounds fed to the
resolver are parsed digit runs, hence nonnegative): with both bounds given,
`0 ≤ start ≤ T - 1` and `start ≤ end`, `get_range` returns `(start, end)`
when `end ≤ T - 1` and `(start, T - 1)` otherwise; with only start given it
fails exactly when `start > T - 1` and otherwise returns `(start, T - 1)`. -/
theorem c5_start_given (s e T : Int) (hT : 1 ≤ T) (hs : 0 ≤ s) :
    (s ≤ T - 1 → s ≤ e →
      get_range (some s) (some e) T
        = Except.ok (s, if e ≤ T - 1 then e else T - 1)) ∧
    (get_range (some s) none T
      = if s ≤ T - 1 then Except.ok (s, T - 1)
        else Except.error "start gt last") := by
  constructor
  · intro h1 h2
    rw [get_range_some_some s e T (by omega) (by omega)]
    rw [if_neg (by omega), if_neg (by omega)]
    by_cases he : e ≤ T - 1
    · rw [if_neg (by omega), if_pos he]
    · rw [if_pos (by omega), if_neg he]
  · rw [get_range_some_none s T (by omega)]
    by_cases hle : s ≤ T - 1
    · rw [if_neg (by omega), if_pos hle]
    · rw [if_pos (by omega), if_neg hle]

theorem c5_witness :
    get_range (some 7) (some 45) 100
      = Except.ok (7, if (45 : Int) ≤ 100 - 1 then 45 else 100 - 1) ∧
    get_range (some 7) none 100
      = (if (7 : Int) ≤ 100 - 1 then Except.ok (7, 100 - 1)
         else Except.error "start gt last") :=
  ⟨(c5_start_given 7 45 100 (by decide) (by decide)).1 (by decide) (by decide),
   (c5_start_given 7 45 100 (by decide) (by decide)).2⟩

/-- C6: for total `T ≥ 1` and a nonnegative end given alone, `get_range`
returns `(0, T - 1)` when `end > T - 1` and `(T - end, T - 1)` otherwise;
in particular `(none, 10, 50)` resolves to `(40, 49)` and `(none, 60, 50)`
to `(0, 49)`. -/
theorem c6_end_only (e T : Int) (hT : 1 ≤ T) (he : 0 ≤ e) :
    get_range none (some e) T
      = (if e > T - 1 then Except.ok (0, T - 1) else Except.ok (T - e, T - 1)) ∧
    get_range none (some 10) 50 = Except.ok (40, 49) ∧
    get_range none (some 60) 50 = Except.ok (0, 49) := by
  refine ⟨?_, rfl, rfl⟩
  rw [get_range_none_some e T (by omega)]
  by_cases hgt : e > T - 1
  · rw [if_pos hgt, if_pos hgt]
  · rw [if_neg hgt, if_neg hgt]
    simp only [Except.ok.injEq, Prod.mk.injEq]
    exact ⟨by omega, trivial⟩

theorem c6_witness :
    get_range none (some 10) 50
      = (if (10 : Int) > 50 - 1 then Except.ok (0, 50 - 1)
         else Except.ok (50 - 10, 50 - 1)) :=
  (c6_end_only 10 50 (by decide) (by decide)).1

/-- C7: the claim says a GET on a 100-item lazy collection with
`offset=10&limit=5` yields 206, items 10 through 14 and the header
`Content-Range: items 10-14/100`.  The code disagrees: the first render
block raises `UnboundLocalError` on the never-assigned `msg` and the
dispatcher returns the 500 server-error outcome, never reaching the range
code — although that (dead) range code, taken on its own, does compute the
range (10, 14), the slice of items 10 through 14, the descriptor
`items 10-14/100`, and a 206 outcome with the Content-Range header. -/
theorem c7_code_bug :
    (call qsResource pagedRequest).outcome = Outcome.response serverErrorResp ∧
    serverErrorResp.status_code = 500 ∧
    determine_request_range qsResource pagedRequest
      = RangeDecision.requested (some 10) (some 14) ∧
    apply_range qsResource pagedRequest (List.range 100)
      = RangeApplied.limited [10, 11, 12, 13, 14] "items 10-14/100" ∧
    buildFinalOutcome 200 (renderValue (MethodResult.queryset [10, 11, 12, 13, 14]))
        "application/json" (some "items 10-14/100")
      = { status_code := 206, content := "10,11,12,13,14",
          headers := [("Content-Type", "application/json"),
                      ("Content-Range", "items 10-14/100")] } :=
  ⟨rfl, rfl, rfl, rfl, rfl⟩

/-- C8: a POST whose body the decoder rejects is answered by the fixed
bad-request (400) outcome immediately, with the handler method never
invoked (invocation list empty) — provided authentication did not already
short-circuit with a challenge, since the challenge branch runs first. -/
theorem c8_undecodable_post (res : Resource) (req : Request)
    (hpost : req.method = "POST")
    (hbody : req.bodyDecodable = false)
    (hauth : (authenticate res req "POST").2 ≠ Anonymity.CHALLENGE) :
    call res req = { outcome := Outcome.response rcBadRequest, invocations := [] } := by
  have hup : strToUpper req.method = "POST" := by rw [hpost]; rfl
  simp only [call, hup]
  rw [if_neg (by decide : ¬ ("POST" = "PUT"))]
  rcases hA : authenticate res req "POST" with ⟨actor, anon⟩
  cases anon with
  | CHALLENGE => exact absurd (by rw [hA]) hauth
  | ofBool b =>
    cases actor <;> simp [callAuthed, hbody]

theorem c8_witness :
    call happyResource badPostRequest
      = { outcome := Outcome.response rcBadRequest, invocations := [] } :=
  c8_undecodable_post happyResource badPostRequest rfl rfl (by decide)

theorem stripOauthBlock_eq_filter (block : List (String × String)) :
    stripOauthBlock block = block.filter (fun kv => !(oauthKey kv.1)) := by
  unfold stripOauthBlock
  split
  · rfl
  · next h =>
    refine (List.filter_eq_self.mpr ?_).symm
    intro a ha
    cases hob : oauthKey a.1 with
    | false => simp [hob]
    | true => exact absurd (List.any_eq_true.mpr ⟨a, ha, hob⟩) h

/-- C9: `cleanup_request` turns each of the GET, PUT, POST and DELETE
parameter blocks independently into its sublist of entries whose keys do
not start with `oauth_` (every `oauth_`-prefixed entry removed, every other
entry kept unchanged and in place), and the handler method is only ever
invoked with the sanitized request. -/
theorem c9_cleanup (req : Request) :
    (cleanup_request req).GET = req.GET.filter (fun kv => !(oauthKey kv.1)) ∧
    (cleanup_request req).PUT = req.PUT.filter (fun kv => !(oauthKey kv.1)) ∧
    (cleanup_request req).POST = req.POST.filter (fun kv => !(oauthKey kv.1)) ∧
    (cleanup_request req).DELETE = req.DELETE.filter (fun kv => !(oauthKey kv.1)) ∧
    ∀ res rm handler r, r ∈ (callDispatch res req rm handler).invocations →
      r = cleanup_request req := by
  refine ⟨stripOauthBlock_eq_filter _, stripOauthBlock_eq_filter _,
    stripOauthBlock_eq_filter _, stripOauthBlock_eq_filter _, ?_⟩
  intro res rm handler r hr
  simp only [callDispatch] at hr
  split at hr
  · split at hr
    · simp at hr
    · split at hr
      · simp at hr
      · split at hr <;> simpa using hr
  · simp at hr

theorem c9_witness :
    (cleanup_request oauthRequest).GET
        = oauthRequest.GET.filter (fun kv => !(oauthKey kv.1)) ∧
    cleanup_request oauthRequest = cleanup_request oauthRequest :=
  ⟨(c9_cleanup oauthRequest).1,
   (c9_cleanup oauthRequest).2.2.2.2 happyResource "GET" happyHandler
     (cleanup_request oauthRequest) (by decide)⟩

/-- C10: when the range header is present but does not begin with `items=`,
the range-determination block yields no range at all — the paging query
parameters are not consulted even when both are present and valid — and the
range-application block passes the collection through unchanged, with no
content-range descriptor and no range failure outcome. -/
theorem c10_non_items_header (res : Resource) (req : Request)
    (items : List Nat) (hv : String)
    (hmeta : lookupParam req.META "HTTP_RANGE" = some hv)
    (hitems : strStartsWith (strTrim hv) "items=" = false) :
    determine_request_range res req = RangeDecision.noRange ∧
    apply_range res req items = RangeApplied.passthrough items := by
  have hd : determine_request_range res req = RangeDecision.noRange := by
    unfold determine_request_range
    rw [hmeta]
    simp [hitems]
  refine ⟨hd, ?_⟩
  unfold apply_range
  rw [hd]

theorem c10_witness :
    determine_request_range qsResource bytesRangeRequest = RangeDecision.noRange ∧
    apply_range qsResource bytesRangeRequest (List.range 100)
      = RangeApplied.passthrough (List.range 100) :=
  c10_non_items_header qsResource bytesRangeRequest (List.range 100)
    "bytes=0-10" rfl rfl

end Piston
